import Mathlib

/-!
Verification development for the anki-flashcarder pipeline.

This file gives a shallow embedding of the two core stages of the program:
the concurrent acquisition pipeline (`app/cambridge_scraper.py`) and the
batch enrichment orchestrator (`app/llm_processor.py`), together with the
cloze utility (`app/utils.py`), and proves the stated behavioural
properties about them.

Modelling conventions:
- Network effects are oracles passed as function arguments: the page fetch,
  the audio download and the LLM call each become a parameter describing
  the outcome the outside world produced for a given input.
- Parsed HTML is modelled by record types carrying exactly the fields the
  extraction code reads.  A field of type `Option X` models the result of a
  BeautifulSoup `find` call: `some` means the element was found (a bs4 Tag
  is truthy regardless of its contents), `none` means `find` returned
  `None`.  Text fields carry the `get_text` result of the found element.
- Python exceptions become `Except` values.  Both gather modes of the two
  batch functions are modelled: `asyncio.gather` with
  `return_exceptions=True` (the `show_progress=False` branch) surfaces the
  per-task `Except` outcomes as a list, while `tqdm.asyncio.gather` (the
  `show_progress=True` branch, not given `return_exceptions`) re-raises
  the first failing task's exception and yields no result list.
  Completion order is scheduler-dependent, so the model deterministically
  re-raises the first error in dispatch order.
- Python string primitives are modelled over the character list of the
  string: `str.isalpha` by `Char.isAlpha`, `str.strip` by `pyStrip`,
  `str.lower` by `pyLower`, `str.startswith` by `pyStartsWith`, slicing
  `s[:-1]` by dropping the last element of the character list.
-/

/-- Python exception values that can escape the modelled code fragments.
`httpStatus` models `httpx.HTTPStatusError` (raised by `raise_for_status`
on a non-2xx response), `request` models `httpx.RequestError` (transport
failure), and `llm` models any exception raised by a batched LLM call
(timeout, malformed response, schema violation). -/
inductive PyError where
  | httpStatus
  | request
  | llm (msg : String)
  deriving DecidableEq, Repr

/-- Model of Python `str.startswith`: the characters of `p` are a prefix
of the characters of `s`. -/
def pyStartsWith (s p : String) : Bool :=
  p.data.isPrefixOf s.data

/-- Model of Python `str.strip` with no argument: remove leading and
trailing whitespace characters. -/
def pyStrip (s : String) : String :=
  ⟨((s.data.dropWhile Char.isWhitespace).reverse.dropWhile
      Char.isWhitespace).reverse⟩

/-- Model of Python `str.lower`: lower-case every character. -/
def pyLower (s : String) : String :=
  ⟨s.data.map Char.toLower⟩

/-- The exception surfaced by a gather that was not given
`return_exceptions=True`: `tqdm.asyncio.gather` wraps its tasks and
awaits them directly, so the first raised exception aborts the whole
await.  Completion order is scheduler-dependent; the model
deterministically surfaces the first error in dispatch order (the claims
settled with it use inputs with exactly one failing task, where the
choice is immaterial). -/
def firstError (rs : List (Except PyError α)) : Option PyError :=
  rs.findSome? fun r =>
    match r with
    | .error e => some e
    | .ok _ => none

namespace App

/-- Image of `WordDefinition` from `app/models.py`. -/
structure WordDefinition where
  word_type : String
  english_meaning : String
  vietnamese_meaning : String
  phonetic : Option String := none
  examples : List String := []
  deriving DecidableEq, Repr

/-- One element of `CambridgeData.definitions`: the dict
`{word_type, english_meaning, examples}` built by
`CambridgeScraper._extract_definitions`. -/
structure DefEntry where
  word_type : String
  english_meaning : String
  examples : List String
  deriving DecidableEq, Repr

/-- Image of `CambridgeData` from `app/models.py`. -/
structure CambridgeData where
  word : String
  definitions : List DefEntry
  audio_url : Option String := none
  phonetic_us : Option String := none
  deriving DecidableEq, Repr

end App

namespace CambridgeScraper

/-- A child node of the sentence tag `span.eg.deg`, as walked by the loop
at `cambridge_scraper.py` lines 144-156: either a `NavigableString` or an
element with a tag name, a flag recording whether its class attribute
equals `["b", "db"]`, and its text. -/
inductive EgChild where
  | str (s : String)
  | tag (name : String) (classIsBdb : Bool) (text : String)
  deriving DecidableEq, Repr

/-- One example node: a `div.examp.dexamp` of the primary tier or a
`li.eg.dexamp.hax` of the expanded-section tier.  `usecaseText` is the
text of the first `span.gram.dgram` or `a.lu.dlu` found inside it (the
Python `or` of the two finds), `egChildren` is the child list of its
`span.eg.deg` when that span exists, `fullText` is its `get_text()`. -/
structure ExampleTag where
  usecaseText : Option String := none
  egChildren : Option (List EgChild) := none
  fullText : String := ""
  deriving DecidableEq, Repr

/-- A sense block (`div` with class matching `def-block`).  `defText` is
the raw `get_text()` of its `div.def` when present; `examplesBox` is the
`div.def-body.ddef_b` with its `div.examp.dexamp` children; `expanded` is
the `section[expanded]` with its `li.eg.dexamp.hax` children. -/
structure SenseDoc where
  defText : Option String := none
  examplesBox : Option (List ExampleTag) := none
  expanded : Option (List ExampleTag) := none
  deriving DecidableEq, Repr

/-- The `div.pos-header` of an entry.  `pos` is the `get_text(strip=True)`
of the first `span.pos` inside it; `none` means no such span was found.
An empty string arises from a span whose text is empty or whitespace
(stripping leaves nothing); such a span is still a truthy Tag. -/
structure PosHeaderDoc where
  pos : Option String := none
  deriving DecidableEq, Repr

/-- One `div.entry-body__el` block with its `div.pos-header` (when found)
and its sense blocks in document order. -/
structure EntryDoc where
  posHeader : Option PosHeaderDoc := none
  senses : List SenseDoc := []
  deriving DecidableEq, Repr

/-- The `span.us` region: the `span.ipa` text found inside it and the
`src` attribute of its `source[type=audio/mpeg]` (when present). -/
structure UsSpan where
  ipa : Option String := none
  audioSrc : Option String := none
  deriving DecidableEq, Repr

/-- A parsed Cambridge page, carrying exactly the regions the extraction
methods read. -/
structure Doc where
  us : Option UsSpan := none
  anyIpa : Option String := none
  anyAudioSrc : Option String := none
  entries : List EntryDoc := []
  deriving DecidableEq, Repr

/-- Image of `_extract_phonetic_us` (lines 70-84): prefer the ipa span
inside `span.us`, fall back to the first ipa span anywhere. -/
def extract_phonetic_us (d : Doc) : Option String :=
  match d.us with
  | some u =>
    match u.ipa with
    | some t => some t
    | none => d.anyIpa
  | none => d.anyIpa

/-- The url normalization performed at lines 93-98 and 103-108 of
`_extract_audio_url_us`: protocol-relative locators get `https:`,
root-relative locators get the fixed base host, anything else is
returned unchanged. -/
def normalizeAudioUrl (url : String) : String :=
  if pyStartsWith url "//" then "https:" ++ url
  else if pyStartsWith url "/" then "https://dictionary.cambridge.org" ++ url
  else url

/-- The global fallback branch of `_extract_audio_url_us` (lines
100-110): the first `source[type=audio/mpeg]` anywhere, guarded by the
truthiness of its `src` attribute. -/
def fallbackAudio (d : Doc) : Option String :=
  match d.anyAudioSrc with
  | some url => if url = "" then none else some (normalizeAudioUrl url)
  | none => none

/-- Image of `_extract_audio_url_us` (lines 86-110): the `span.us` tier
first; when it yields no truthy `src`, the document-wide fallback. -/
def extract_audio_url_us (d : Doc) : Option String :=
  match d.us with
  | some u =>
    match u.audioSrc with
    | some url => if url = "" then fallbackAudio d else some (normalizeAudioUrl url)
    | none => fallbackAudio d
  | none => fallbackAudio d

/-- Rendering of one child of `span.eg.deg` (lines 144-156): a span whose
class list is exactly `["b", "db"]` becomes a highlight span, every other
child contributes its text. -/
def renderEgChild (c : EgChild) : String :=
  match c with
  | .str s => s
  | .tag name classIsBdb text =>
    if name = "span" ∧ classIsBdb then
      "<span class=\"example_highligh\">" ++ text ++ "</span>"
    else text

/-- The `exp_usecase` string (lines 133-138). -/
def renderUsecase (t : Option String) : String :=
  match t with
  | some s => "<span class=\"example_usecase\">" ++ s ++ "</span>"
  | none => ""

/-- The `exp_sentence` payload (lines 141-159): the child walk runs only
when the examples box was found and the example has a `span.eg.deg`;
otherwise the example contributes its plain `get_text()`. -/
def renderSentence (boxPresent : Bool) (exp : ExampleTag) : String :=
  match boxPresent, exp.egChildren with
  | true, some cs => "  " ++ String.join (cs.map renderEgChild)
  | _, _ => "  " ++ exp.fullText

/-- One rendered example (lines 161-162): the fixed three-tag template. -/
def renderExample (boxPresent : Bool) (exp : ExampleTag) : String :=
  "<div class=\"example\">" ++ renderUsecase exp.usecaseText ++
    "<span class=\"example_sentence\">" ++ renderSentence boxPresent exp ++
    "</span>" ++ "</div>"

/-- Tier selection of `_get_examples` (lines 114-127), returning the
chosen example tags together with whether the examples box was found
(which the per-example rendering condition at line 142 consults).  When
the box is missing or its tag list is empty, the expanded section is
tried; when that is also missing, the method returns `None`. -/
def exampleTagsOf (s : SenseDoc) : Option (List ExampleTag × Bool) :=
  match s.examplesBox with
  | some tags =>
    if tags ≠ [] then some (tags, true)
    else
      match s.expanded with
      | some lis => some (lis, true)
      | none => none
  | none =>
    match s.expanded with
    | some lis => some (lis, false)
    | none => none

/-- The `examples` list accumulated by the loop of `_get_examples`
(lines 129-163), whose `if i >= max_example: break` makes it process only
the first `max_example` tags. -/
def examplesAcc (s : SenseDoc) (max_example : Nat) : Option (List String) :=
  match exampleTagsOf s with
  | some (tags, boxPresent) =>
    some ((tags.take max_example).map (renderExample boxPresent))
  | none => none

/-- Image of `_get_examples` (lines 112-165): the accumulated examples
joined with a newline, or `None` when nothing was accumulated. -/
def get_examples (s : SenseDoc) (max_example : Nat) : Option String :=
  match examplesAcc s max_example with
  | some l => if l = [] then none else some (String.intercalate "\n" l)
  | none => none

/-- The trailing-character policy at lines 192-194: the meaning text, when
non-empty with a non-alphabetic final character, loses exactly its last
character (Python `english_meaning[:-1]`). -/
def cleanMeaning (s : String) : String :=
  match s.data.getLast? with
  | some c => if c.isAlpha then s else ⟨s.data.dropLast⟩
  | none => s

/-- Per-sense contribution inside `_extract_definitions` (lines 186-204):
a sense without a `div.def` is skipped; otherwise the meaning is stripped
and cleaned, the examples string is split on newlines (an empty or absent
string yields no examples), and one dict is appended. -/
def senseDefs (word_type : String) (sense : SenseDoc) : List App.DefEntry :=
  match sense.defText with
  | none => []
  | some raw =>
    let english_meaning := cleanMeaning (pyStrip raw)
    let examples :=
      match get_examples sense 3 with
      | some s => if s = "" then [] else s.splitOn "\n"
      | none => []
    [{ word_type := word_type, english_meaning := english_meaning,
       examples := examples }]

/-- Per-entry contribution of `_extract_definitions` (lines 174-204): an
entry without a `div.pos-header` is skipped entirely; the word type is the
stripped text of `span.pos` when that span is found, and the literal
`unknown` when it is not. -/
def entryDefs (entry : EntryDoc) : List App.DefEntry :=
  match entry.posHeader with
  | none => []
  | some ph =>
    let word_type :=
      match ph.pos with
      | some t => t
      | none => "unknown"
    entry.senses.flatMap (senseDefs word_type)

/-- Image of `_extract_definitions` (lines 167-206): the definitions
accumulated entry by entry, sense by sense, in document order. -/
def extract_definitions (d : Doc) : List App.DefEntry :=
  d.entries.flatMap entryDefs

/-- Outcome of the page fetch in `scrape_word` (lines 37-46): a parsed
document, or one of the two caught `httpx` error classes. -/
inductive FetchResult where
  | ok (doc : Doc)
  | requestError
  | statusError
  deriving Repr

/-- Image of `scrape_word` (lines 28-68).  The word is stripped and
lower-cased, the fetch outcome for it is consulted (both error classes
are caught and yield `None`), and a record is built unless zero
definitions were extracted. -/
def scrape_word (fetch : String → FetchResult) (word : String) :
    Option App.CambridgeData :=
  let w := pyLower (pyStrip word)
  match fetch w with
  | .requestError => none
  | .statusError => none
  | .ok doc =>
    let phonetic_us := extract_phonetic_us doc
    let audio_url := extract_audio_url_us doc
    let definitions := extract_definitions doc
    if definitions = [] then none
    else some { word := w, definitions := definitions,
                audio_url := audio_url, phonetic_us := phonetic_us }

/-- Outcome the outside world produced for the audio GET inside
`download_audio` (lines 220-231). -/
inductive DlOutcome where
  | ok
  | requestError
  | statusError
  deriving DecidableEq, Repr

/-- Image of `download_audio` (lines 208-231).  A falsy url returns the
empty path at once.  Only `httpx.RequestError` is caught (line 229) and
degraded to the empty path; `raise_for_status` raising
`httpx.HTTPStatusError` on a non-2xx response escapes the method. -/
def download_audio (dl : String → String → DlOutcome) (audioDir : String)
    (audio_url : String) (word : String) : Except PyError String :=
  if audio_url = "" then .ok ""
  else
    let filepath := audioDir ++ "/" ++ word ++ ".mp3"
    match dl audio_url word with
    | .ok => .ok filepath
    | .requestError => .ok ""
    | .statusError => .error .httpStatus

/-- Image of `process_word` (lines 233-246): scrape, then download audio
when the record carries a truthy audio locator.  The method installs no
exception handler, so an exception escaping `download_audio` escapes the
whole per-word task. -/
def process_word (fetch : String → FetchResult)
    (dl : String → String → DlOutcome) (audioDir : String) (word : String) :
    Except PyError (Option (String × App.CambridgeData × String)) :=
  match scrape_word fetch word with
  | none => .ok none
  | some cambridge_data =>
    match cambridge_data.audio_url with
    | none => .ok (some (word, cambridge_data, ""))
    | some url =>
      if url = "" then .ok (some (word, cambridge_data, ""))
      else
        match download_audio dl audioDir url word with
        | .ok p => .ok (some (word, cambridge_data, p))
        | .error e => .error e

/-- The result-processing step of `process_words_batch` (lines 270-280):
a task that raised, and a task that returned `None`, both become the
failure marker for their word; a returned triple is kept as a success. -/
def processResult (w : String)
    (r : Except PyError (Option (String × App.CambridgeData × String))) :
    String × Option App.CambridgeData × String :=
  match r with
  | .error _ => (w, none, "")
  | .ok none => (w, none, "")
  | .ok (some t) => (t.1, some t.2.1, t.2.2)

/-- The result-conversion loop of `process_words_batch` (lines 270-280)
applied to the per-word task outcomes: one outcome per input word,
collected positionally (task `i` belongs to `words[i]`). -/
def acquireOutcomes (fetch : String → FetchResult)
    (dl : String → String → DlOutcome) (audioDir : String)
    (words : List String) :
    List (String × Option App.CambridgeData × String) :=
  words.map fun w => processResult w (process_word fetch dl audioDir w)

/-- Image of `process_words_batch` (lines 248-281) in both gather modes.
With `show_progress=False` the tasks are gathered with
`return_exceptions=True` and every outcome — exceptions included — runs
through the conversion loop.  With `show_progress=True` (the default,
and the mode used by `pipeline.py` line 77) the tasks go through
`async_tqdm.gather`, which is not given `return_exceptions`, so the
first raised task exception re-raises out of the gather and the whole
call aborts before the conversion loop runs. -/
def process_words_batch (show_progress : Bool)
    (fetch : String → FetchResult) (dl : String → String → DlOutcome)
    (audioDir : String) (words : List String) :
    Except PyError (List (String × Option App.CambridgeData × String)) :=
  if show_progress then
    match firstError (words.map (process_word fetch dl audioDir)) with
    | some e => .error e
    | none => .ok (acquireOutcomes fetch dl audioDir words)
  else
    .ok (acquireOutcomes fetch dl audioDir words)

end CambridgeScraper

namespace LLMProcessor

/-- Image of `SelectedDefinitions` from `app/llm_processor.py`. -/
structure SelectedDefinitions where
  definitions : List App.WordDefinition
  deriving DecidableEq, Repr

/-- Image of `BatchProcessWords`: the structured response of one batched
LLM call, one `SelectedDefinitions` per word. -/
structure BatchProcessWords where
  words : List SelectedDefinitions
  deriving DecidableEq, Repr

/-- Image of `ProcessedWord` from `app/models.py`. -/
structure ProcessedWord where
  word : String
  selected_definitions : List App.WordDefinition
  audio_path : String
  deriving DecidableEq, Repr

/-- The slice partition `[valid_data[i:i+batch_size] for i in
range(0, len(valid_data), batch_size)]` (lines 147-150): contiguous
chunks of `batch_size` elements, the last possibly smaller.  A zero
batch size (a `ValueError` in Python) is mapped to the empty partition. -/
def chunkList (batch_size : Nat) (xs : List α) : List (List α) :=
  if h : xs.isEmpty ∨ batch_size = 0 then []
  else xs.take batch_size :: chunkList batch_size (xs.drop batch_size)
termination_by xs.length
decreasing_by
  push_neg at h
  rcases h with ⟨hx, hb⟩
  have hlen : 0 < xs.length := by
    cases xs with
    | nil => simp at hx
    | cons a l => simp
  simp only [List.length_drop]
  omega

/-- The filter at line 139: drop the words whose Cambridge scrape failed,
keeping the relative order; the kept entries carry a definite record. -/
def valid_data
    (word_data_list : List (String × Option App.CambridgeData × String)) :
    List (String × App.CambridgeData × String) :=
  word_data_list.filterMap fun wda =>
    match wda with
    | (w, some cd, ap) => some (w, cd, ap)
    | (_, none, _) => none

/-- The batches built at lines 147-150. -/
def batchesOf (batch_size : Nat)
    (word_data_list : List (String × Option App.CambridgeData × String)) :
    List (List (String × App.CambridgeData × String)) :=
  chunkList batch_size (valid_data word_data_list)

/-- The per-batch outcomes of the concurrently dispatched LLM calls
(lines 153-164): one coroutine per batch receives the batch records and
either returns a structured response or raises.  How the gather surfaces
these outcomes depends on the mode — collected as values under
`return_exceptions=True`, or re-raised (aborting the whole gather) under
the progress-bar gather; see `process_words_batch`. -/
def resultsOf
    (llmCall : List App.CambridgeData → Except PyError BatchProcessWords)
    (batch_size : Nat)
    (word_data_list : List (String × Option App.CambridgeData × String)) :
    List (Except PyError BatchProcessWords) :=
  (batchesOf batch_size word_data_list).map fun batch =>
    llmCall (batch.map fun t => t.2.1)

/-- The body of the result loop (lines 168-186) for one batch: a raised
batch contributes nothing (its words are logged and dropped); a returned
batch is zipped entry-by-entry with the batch records, truncating at the
shorter side, and each pair is stitched into a `ProcessedWord`. -/
def batchContribution
    (p : Except PyError BatchProcessWords ×
         List (String × App.CambridgeData × String)) :
    List ProcessedWord :=
  match p.1 with
  | .error _ => []
  | .ok br =>
    (br.words.zip p.2).map fun q =>
      { word := q.2.1, selected_definitions := q.1.definitions,
        audio_path := q.2.2.2 }

/-- The result-stitching of lines 166-188 applied to the per-batch
outcomes: raised batches contribute nothing, returned batches are zipped
back to their records, contributions concatenated in batch order. -/
def stitchBatches
    (llmCall : List App.CambridgeData → Except PyError BatchProcessWords)
    (batch_size : Nat)
    (word_data_list : List (String × Option App.CambridgeData × String)) :
    List ProcessedWord :=
  ((resultsOf llmCall batch_size word_data_list).zip
    (batchesOf batch_size word_data_list)).flatMap batchContribution

/-- Image of `LLMProcessor.process_words_batch` (lines 128-188) in both
gather modes: filter (an all-failed input returns the empty list before
any dispatch), partition, dispatch one call per batch, then collect.
With `show_progress=False` the batch coroutines are gathered with
`return_exceptions=True` and the loop at lines 168-186 drops raised
batches one by one.  With `show_progress=True` (the default, and the
mode used by `pipeline.py` lines 87-90) `async_tqdm.gather` is not given
`return_exceptions`, so the first raised batch exception re-raises and
the whole enrichment call aborts, sibling batches included. -/
def process_words_batch (show_progress : Bool)
    (llmCall : List App.CambridgeData → Except PyError BatchProcessWords)
    (batch_size : Nat)
    (word_data_list : List (String × Option App.CambridgeData × String)) :
    Except PyError (List ProcessedWord) :=
  if valid_data word_data_list = [] then .ok []
  else if show_progress then
    match firstError (resultsOf llmCall batch_size word_data_list) with
    | some e => .error e
    | none => .ok (stitchBatches llmCall batch_size word_data_list)
  else
    .ok (stitchBatches llmCall batch_size word_data_list)

/-- The word components of a list of acquisition successes. -/
def wordsOfBatch (b : List (String × App.CambridgeData × String)) :
    List String :=
  b.map fun t => t.1

end LLMProcessor

namespace Utils

/-- Image of `create_cloze` from `app/utils.py` (lines 5-18): the loop
appends an underscore for an alphabetic character and the character
itself otherwise. -/
def create_cloze (word : String) : String :=
  word.data.foldl
    (fun cloze char => if char.isAlpha then cloze.push '_' else cloze.push char)
    ""

/-- Image of `clean_word` from `app/utils.py` (lines 21-23). -/
def clean_word (word : String) : String :=
  pyLower (pyStrip word)

end Utils

lemma create_cloze_foldl (l : List Char) (s : String) :
    (l.foldl
        (fun cloze char =>
          if char.isAlpha then cloze.push '_' else cloze.push char) s).data
      = s.data ++ l.map (fun c => if c.isAlpha then '_' else c) := by
  induction l generalizing s with
  | nil => simp
  | cons c l ih =>
    simp only [List.foldl_cons, List.map_cons]
    rw [ih]
    by_cases hc : c.isAlpha
    · simp [hc, String.push]
    · simp [hc, String.push]

/-- C9: the cloze transform is a pure function of character class: every
alphabetic character becomes an underscore, every other character passes
through unchanged in its position, so the output has the same length as
the input; in particular `ice-cream` maps to `___-_____`. -/
theorem c9_cloze_character_class (word : String) :
    (Utils.create_cloze word).data
        = word.data.map (fun c => if c.isAlpha then '_' else c)
    ∧ (Utils.create_cloze word).length = word.length
    ∧ Utils.create_cloze "ice-cream" = "___-_____" := by
  have hdata := create_cloze_foldl word.data ""
  refine ⟨by simpa [Utils.create_cloze] using hdata, ?_, by decide⟩
  simp only [Utils.create_cloze, String.length]
  rw [create_cloze_foldl word.data ""]
  simp

/-- C5: the trailing-character policy of the meaning extraction: a
non-empty stripped meaning whose final character is non-alphabetic loses
exactly one trailing character, a meaning ending in a letter is left
unchanged; `a serious attempt.` becomes `a serious attempt` and `a tool`
stays `a tool`. -/
theorem c5_trailing_char_strip (s : String) (c : Char) :
    (s.data.getLast? = some c → c.isAlpha = false →
      CambridgeScraper.cleanMeaning s = ⟨s.data.dropLast⟩
        ∧ (CambridgeScraper.cleanMeaning s).length + 1 = s.length)
    ∧ (s.data.getLast? = some c → c.isAlpha = true →
      CambridgeScraper.cleanMeaning s = s)
    ∧ CambridgeScraper.cleanMeaning "a serious attempt." = "a serious attempt"
    ∧ CambridgeScraper.cleanMeaning "a tool" = "a tool" := by
  refine ⟨?_, ?_, by decide, by decide⟩
  · intro hc ha
    have hne : s.data ≠ [] := by
      intro h
      rw [h] at hc
      simp at hc
    have hres : CambridgeScraper.cleanMeaning s = ⟨s.data.dropLast⟩ := by
      simp [CambridgeScraper.cleanMeaning, hc, ha]
    refine ⟨hres, ?_⟩
    rw [hres]
    simp only [String.length]
    rw [List.length_dropLast]
    have := List.length_pos.mpr hne
    omega
  · intro hc ha
    simp [CambridgeScraper.cleanMeaning, hc, ha]

/-- Witness for C5 at the concrete meaning `ab.`: the final full stop is
stripped, leaving exactly the first two characters. -/
theorem c5_trailing_char_strip_witness :
    CambridgeScraper.cleanMeaning "ab." = ⟨"ab.".data.dropLast⟩ :=
  ((c5_trailing_char_strip "ab." '.').1 (by decide) (by decide)).1

/-- C7: audio-locator normalization: a protocol-relative locator gets the
`https:` scheme, a root-relative locator gets the fixed base host, and
any other locator is returned unchanged; concrete instances included,
together with the use of the normalization inside
`_extract_audio_url_us`. -/
theorem c7_audio_locator_normalization (url : String) :
    (pyStartsWith url "//" = true →
      CambridgeScraper.normalizeAudioUrl url = "https:" ++ url)
    ∧ (pyStartsWith url "//" = false → pyStartsWith url "/" = true →
      CambridgeScraper.normalizeAudioUrl url
        = "https://dictionary.cambridge.org" ++ url)
    ∧ (pyStartsWith url "/" = false →
      CambridgeScraper.normalizeAudioUrl url = url)
    ∧ CambridgeScraper.normalizeAudioUrl "//host/a.mp3"
        = "https://host/a.mp3"
    ∧ CambridgeScraper.normalizeAudioUrl "/path/a.mp3"
        = "https://dictionary.cambridge.org/path/a.mp3"
    ∧ CambridgeScraper.normalizeAudioUrl "https://x/a.mp3"
        = "https://x/a.mp3"
    ∧ CambridgeScraper.extract_audio_url_us
        { us := some { ipa := none, audioSrc := some "//host/a.mp3" } }
        = some "https://host/a.mp3" := by
  refine ⟨?_, ?_, ?_, by decide, by decide, by decide, by decide⟩
  · intro h
    simp [CambridgeScraper.normalizeAudioUrl, h]
  · intro h1 h2
    simp [CambridgeScraper.normalizeAudioUrl, h1, h2]
  · intro h
    have h2 : pyStartsWith url "//" = false := by
      rw [Bool.eq_false_iff] at h ⊢
      intro hc
      apply h
      simp only [pyStartsWith, List.isPrefixOf_iff_prefix] at hc ⊢
      exact List.IsPrefix.trans (by simp) hc
    simp [CambridgeScraper.normalizeAudioUrl, h, h2]

/-- Witness for C7 at a fully-qualified locator: it is unchanged. -/
theorem c7_audio_locator_normalization_witness :
    CambridgeScraper.normalizeAudioUrl "mailto:a@b"
      = "mailto:a@b" :=
  (c7_audio_locator_normalization "mailto:a@b").2.2.1 (by decide)

lemma process_word_ok_some_word (fetch : String → CambridgeScraper.FetchResult)
    (dl : String → String → CambridgeScraper.DlOutcome) (audioDir word : String)
    (w2 : String) (cd2 : App.CambridgeData) (ap2 : String)
    (h : CambridgeScraper.process_word fetch dl audioDir word
      = .ok (some (w2, cd2, ap2))) :
    w2 = word := by
  unfold CambridgeScraper.process_word at h
  split at h
  · simp at h
  · split at h
    · simp at h
      exact h.1.symm
    · split at h
      · simp at h
        exact h.1.symm
      · split at h
        · simp at h
          exact h.1.symm
        · simp at h

/-- The conversion loop yields exactly one outcome per input word,
positionally: outcome `i` carries word `i` and is either the failure
marker or a success triple; a per-word task that raised or returned
`None` yields the failure marker for that word.  This is the behaviour
of lines 270-280 over the task outcomes — the `show_progress=False`
gather is the only mode that delivers exceptions to it. -/
lemma acquire_outcomes_shape (fetch : String → CambridgeScraper.FetchResult)
    (dl : String → String → CambridgeScraper.DlOutcome) (audioDir : String)
    (words : List String) :
    (CambridgeScraper.acquireOutcomes fetch dl audioDir words).length
        = words.length
    ∧ (∀ i (h : i < words.length),
        (CambridgeScraper.acquireOutcomes fetch dl audioDir words)[i]?
            = some (words[i], none, "")
        ∨ ∃ cd ap,
          (CambridgeScraper.acquireOutcomes fetch dl audioDir words)[i]?
            = some (words[i], some cd, ap))
    ∧ (∀ i (h : i < words.length),
        ((∃ e, CambridgeScraper.process_word fetch dl audioDir words[i]
            = .error e)
          ∨ CambridgeScraper.process_word fetch dl audioDir words[i]
            = .ok none) →
        (CambridgeScraper.acquireOutcomes fetch dl audioDir words)[i]?
          = some (words[i], none, "")) := by
  refine ⟨by simp [CambridgeScraper.acquireOutcomes], ?_, ?_⟩
  · intro i h
    have hw : words[i]? = some words[i] := List.getElem?_eq_getElem h
    cases hr : CambridgeScraper.process_word fetch dl audioDir words[i] with
    | error e =>
      left
      simp [CambridgeScraper.acquireOutcomes, hw,
        CambridgeScraper.processResult, hr]
    | ok o =>
      cases o with
      | none =>
        left
        simp [CambridgeScraper.acquireOutcomes, hw,
          CambridgeScraper.processResult, hr]
      | some t =>
        right
        obtain ⟨w2, cd2, ap2⟩ := t
        refine ⟨cd2, ap2, ?_⟩
        have ht := process_word_ok_some_word fetch dl audioDir words[i]
          w2 cd2 ap2 hr
        simp [CambridgeScraper.acquireOutcomes, hw,
          CambridgeScraper.processResult, hr, ht]
  · intro i h hfail
    have hw : words[i]? = some words[i] := List.getElem?_eq_getElem h
    rcases hfail with ⟨e, he⟩ | he
    · simp [CambridgeScraper.acquireOutcomes, hw,
        CambridgeScraper.processResult, he]
    · simp [CambridgeScraper.acquireOutcomes, hw,
        CambridgeScraper.processResult, he]

/-- A concrete parsed page used to settle C2: definitions plus an audio
locator inside the `span.us` region, so the audio download runs. -/
def c2doc : CambridgeScraper.Doc :=
  { us := some { ipa := none, audioSrc := some "//h/a.mp3" },
    anyIpa := none, anyAudioSrc := none,
    entries := [{ posHeader := some { pos := some "noun" },
                  senses := [{ defText := some "a tool" }] }] }

/-- The record `scrape_word` builds from `c2doc` for the word `beta`. -/
def c2cdBeta : App.CambridgeData :=
  { word := "beta",
    definitions := [{ word_type := "noun", english_meaning := "a tool",
                      examples := [] }],
    audio_url := some "https://h/a.mp3", phonetic_us := none }

/-- A concrete audio-download oracle for C2: the GET issued for the word
`tool` answers with a non-2xx status (making that per-word task raise),
every other download succeeds. -/
def c2dl (_url word : String) : CambridgeScraper.DlOutcome :=
  if word = "tool" then .statusError else .ok

/-- C2: the per-word exception path meets the default gather.  With the
audio GET for `tool` answering a non-2xx status, the per-word task for
`tool` raises `HTTPStatusError`; under the default progress-bar gather
(`show_progress=True`, the mode `pipeline.py` uses) the whole
acquisition call re-raises and returns no outcome list at all, while the
no-progress gather converts the exception to the failure marker for that
word only and returns exactly one outcome per word.  The claimed
per-word conversion is what the conversion loop in the code does, but
the default mode aborts before reaching it. -/
theorem c2_gather_abort :
    CambridgeScraper.process_words_batch true (fun _ => .ok c2doc) c2dl
        "data/audio" ["tool", "beta"]
      = .error PyError.httpStatus
    ∧ CambridgeScraper.process_words_batch false (fun _ => .ok c2doc) c2dl
        "data/audio" ["tool", "beta"]
      = .ok [("tool", none, ""),
             ("beta", some c2cdBeta, "data/audio/beta.mp3")] :=
  ⟨by rfl, by rfl⟩

/-- A concrete parsed page used to settle C3: one entry with one sense
and a protocol-relative audio locator inside the `span.us` region. -/
def c3doc : CambridgeScraper.Doc :=
  { us := some { ipa := none, audioSrc := some "//h/a.mp3" },
    anyIpa := none, anyAudioSrc := none,
    entries := [{ posHeader := some { pos := some "noun" },
                  senses := [{ defText := some "a tool" }] }] }

/-- The record `scrape_word` builds from `c3doc`. -/
def c3cd : App.CambridgeData :=
  { word := "tool",
    definitions := [{ word_type := "noun", english_meaning := "a tool",
                      examples := [] }],
    audio_url := some "https://h/a.mp3", phonetic_us := none }

/-- Counterexample to C3: on a word whose fetch and extraction succeed
and whose record carries an audio locator, a non-2xx status on the audio
download does not degrade only the audio field.  `download_audio` catches
only `httpx.RequestError`, so the `HTTPStatusError` raised by
`raise_for_status` escapes `process_word`; downstream, the no-progress
gather turns the whole word into the failure marker instead of
`(word, record, "")`, and the default progress gather aborts the whole
batch call with that exception. -/
theorem c3_counterexample :
    CambridgeScraper.scrape_word (fun _ => .ok c3doc) "tool" = some c3cd
    ∧ c3cd.audio_url = some "https://h/a.mp3"
    ∧ CambridgeScraper.process_word (fun _ => .ok c3doc)
        (fun _ _ => .statusError) "data/audio" "tool"
      = .error PyError.httpStatus
    ∧ CambridgeScraper.process_words_batch false (fun _ => .ok c3doc)
        (fun _ _ => .statusError) "data/audio" ["tool"]
      = .ok [("tool", none, "")]
    ∧ CambridgeScraper.process_words_batch true (fun _ => .ok c3doc)
        (fun _ _ => .statusError) "data/audio" ["tool"]
      = .error PyError.httpStatus :=
  ⟨by decide, by decide, by rfl, by rfl, by rfl⟩

/-- C3 as amended: when fetch and extraction succeed and the record
carries a non-empty audio locator, a transport failure of the audio
download degrades only the audio field, returning `(word, record, "")`;
a non-2xx status, however, raises `HTTPStatusError` out of the per-word
task (the whole word then becomes a failure marker downstream). -/
theorem c3_audio_failure_policy (fetch : String → CambridgeScraper.FetchResult)
    (dl : String → String → CambridgeScraper.DlOutcome)
    (audioDir word url : String) (cd : App.CambridgeData)
    (hs : CambridgeScraper.scrape_word fetch word = some cd)
    (hu : cd.audio_url = some url) (hne : url ≠ "") :
    (dl url word = .requestError →
      CambridgeScraper.process_word fetch dl audioDir word
        = .ok (some (word, cd, "")))
    ∧ (dl url word = .statusError →
      CambridgeScraper.process_word fetch dl audioDir word
        = .error PyError.httpStatus) := by
  constructor
  · intro hd
    simp [CambridgeScraper.process_word, hs, hu, hne,
      CambridgeScraper.download_audio, hd]
  · intro hd
    simp [CambridgeScraper.process_word, hs, hu, hne,
      CambridgeScraper.download_audio, hd]

/-- Witness for the amended C3 at the concrete fixture: a transport
failure of the audio download leaves the word successful with an empty
audio path. -/
theorem c3_audio_failure_policy_witness :
    CambridgeScraper.process_word (fun _ => .ok c3doc)
        (fun _ _ => .requestError) "data/audio" "tool"
      = .ok (some ("tool", c3cd, "")) :=
  (c3_audio_failure_policy (fun _ => .ok c3doc) (fun _ _ => .requestError)
      "data/audio" "tool" "https://h/a.mp3" c3cd
      (by decide) (by decide) (by decide)).1 rfl

/-- A concrete parsed page used to settle C4: one entry whose pos-header
exists and holds a pos span whose stripped text is empty. -/
def c4doc : CambridgeScraper.Doc :=
  { entries := [{ posHeader := some { pos := some "" },
                  senses := [{ defText := some "to move fast" }] }] }

/-- Counterexample to C4: an entry whose word-type header exists but
whose word-type text is empty records the empty string as `word_type`,
not the literal `unknown`. -/
theorem c4_counterexample :
    CambridgeScraper.extract_definitions c4doc
      = [{ word_type := "", english_meaning := "to move fast",
           examples := [] }]
    ∧ ("" : String) ≠ "unknown" :=
  ⟨by decide, by decide⟩

/-- C4 as amended: an entry with no word-type header contributes nothing;
when the header exists, the literal `unknown` is recorded exactly when
the pos span is absent, and when the span is present its stripped text is
recorded verbatim — even when that text is empty — instead of dropping
the entry. -/
theorem c4_word_type_policy (entry : CambridgeScraper.EntryDoc) :
    (entry.posHeader = none → CambridgeScraper.entryDefs entry = [])
    ∧ (∀ ph, entry.posHeader = some ph → ph.pos = none →
        CambridgeScraper.entryDefs entry
          = entry.senses.flatMap (CambridgeScraper.senseDefs "unknown"))
    ∧ (∀ ph t, entry.posHeader = some ph → ph.pos = some t →
        CambridgeScraper.entryDefs entry
          = entry.senses.flatMap (CambridgeScraper.senseDefs t)) := by
  refine ⟨?_, ?_, ?_⟩
  · intro h
    simp [CambridgeScraper.entryDefs, h]
  · intro ph h hp
    simp [CambridgeScraper.entryDefs, h, hp]
  · intro ph t h hp
    simp [CambridgeScraper.entryDefs, h, hp]

/-- Witness for the amended C4: an entry whose pos-header has no pos span
records `unknown` for its sense. -/
theorem c4_word_type_policy_witness :
    CambridgeScraper.entryDefs
        { posHeader := some { pos := none },
          senses := [{ defText := some "run" }] }
      = [{ word_type := "unknown", english_meaning := "run",
           examples := [] }] :=
  ((c4_word_type_policy
      { posHeader := some { pos := none },
        senses := [{ defText := some "run" }] }).2.1
    { pos := none } rfl rfl).trans (by decide)

/-- C6: a document in which no entry bears definitions extracts to the
empty list, and a successful fetch of such a document makes the whole
word scrape return `None`.  Both an empty entry list and entries that all
get skipped land in the same empty result. -/
theorem c6_zero_definitions_is_failure (d : CambridgeScraper.Doc)
    (fetch : String → CambridgeScraper.FetchResult) (word : String)
    (h : ∀ e ∈ d.entries, CambridgeScraper.entryDefs e = []) :
    CambridgeScraper.extract_definitions d = []
    ∧ (fetch (pyLower (pyStrip word)) = .ok d →
        CambridgeScraper.scrape_word fetch word = none) := by
  have hex : CambridgeScraper.extract_definitions d = [] := by
    simp only [CambridgeScraper.extract_definitions]
    exact List.flatMap_eq_nil_iff.mpr h
  refine ⟨hex, fun hf => ?_⟩
  simp [CambridgeScraper.scrape_word, hf, hex]

/-- Witness for C6: a page whose only entry lacks a pos-header scrapes to
`None`. -/
theorem c6_zero_definitions_is_failure_witness :
    CambridgeScraper.scrape_word
        (fun _ => .ok { entries := [{ posHeader := none,
                                      senses := [{ defText := some "x" }] }] })
        "zzz"
      = none :=
  (c6_zero_definitions_is_failure
      { entries := [{ posHeader := none, senses := [{ defText := some "x" }] }] }
      (fun _ => .ok { entries := [{ posHeader := none,
                                    senses := [{ defText := some "x" }] }] })
      "zzz" (by decide)).2 rfl

/-- C10: positional re-association truncates silently at the shorter
side: a successful batch contributes exactly
`min (response entries) (batch records)` enriched words, and entry `i`
of the contribution pairs response entry `i` with batch record `i`
(word and audio path from the record, definitions from the response).
Trailing records without a response entry, and surplus response entries
beyond the batch, are silently dropped by the zip. -/
theorem c10_positional_reassociation (br : LLMProcessor.BatchProcessWords)
    (batch : List (String × App.CambridgeData × String)) :
    (LLMProcessor.batchContribution (.ok br, batch)).length
        = min br.words.length batch.length
    ∧ ∀ i (h1 : i < br.words.length) (h2 : i < batch.length),
        (LLMProcessor.batchContribution (.ok br, batch))[i]?
          = some { word := batch[i].1,
                   selected_definitions := br.words[i].definitions,
                   audio_path := batch[i].2.2 } := by
  constructor
  · simp [LLMProcessor.batchContribution, List.length_zip]
  · intro i h1 h2
    have hz : i < (br.words.zip batch).length := by
      simp [List.length_zip]
      omega
    have hm : i < (LLMProcessor.batchContribution (.ok br, batch)).length := by
      simp [LLMProcessor.batchContribution, List.length_zip]
      omega
    rw [List.getElem?_eq_getElem hm]
    congr 1
    simp only [LLMProcessor.batchContribution, List.getElem_map,
      List.getElem_zip]

/-- Witness for C10: a response with one entry against a batch of two
records contributes exactly the first record, stitched with the response
entry. -/
theorem c10_positional_reassociation_witness :
    (LLMProcessor.batchContribution
        (.ok { words := [{ definitions := [] }] },
          [("a", { word := "a", definitions := [] }, "pa"),
           ("b", { word := "b", definitions := [] }, "pb")]))[0]?
      = some { word := "a", selected_definitions := [], audio_path := "pa" } :=
  (c10_positional_reassociation { words := [{ definitions := [] }] }
      [("a", { word := "a", definitions := [] }, "pa"),
       ("b", { word := "b", definitions := [] }, "pb")]).2 0
    (by decide) (by decide)

lemma chunkList_flatten (batch_size : Nat) (hbs : batch_size ≠ 0)
    (xs : List α) :
    (LLMProcessor.chunkList batch_size xs).flatten = xs := by
  rw [LLMProcessor.chunkList]
  split
  · rename_i h
    rcases h with h | h
    · have hx : xs = [] := by cases xs <;> simp_all
      simp [hx]
    · exact absurd h hbs
  · rw [List.flatten_cons,
      chunkList_flatten batch_size hbs (xs.drop batch_size)]
    exact List.take_append_drop _ _
termination_by xs.length
decreasing_by
  rename_i h
  push_neg at h
  rcases h with ⟨hx, hb⟩
  have hlen : 0 < xs.length := by
    cases xs with
    | nil => simp at hx
    | cons a l => simp
  simp only [List.length_drop]
  omega

lemma chunkList_nil (batch_size : Nat) :
    LLMProcessor.chunkList batch_size ([] : List α) = [] := by
  rw [LLMProcessor.chunkList]
  simp

lemma chunkList_cons (batch_size : Nat) (hbs : batch_size ≠ 0) (x : α)
    (xs : List α) :
    LLMProcessor.chunkList batch_size (x :: xs)
      = (x :: xs).take batch_size
        :: LLMProcessor.chunkList batch_size ((x :: xs).drop batch_size) := by
  rw [LLMProcessor.chunkList]
  simp [hbs]

lemma wordsOfBatch_flatten
    (L : List (List (String × App.CambridgeData × String))) :
    LLMProcessor.wordsOfBatch L.flatten
      = L.flatMap LLMProcessor.wordsOfBatch := by
  simp only [LLMProcessor.wordsOfBatch, List.flatMap_def, List.map_flatten]
  rfl

lemma batchContribution_ok_words (br : LLMProcessor.BatchProcessWords)
    (b : List (String × App.CambridgeData × String))
    (hlen : br.words.length = b.length) :
    (LLMProcessor.batchContribution (.ok br, b)).map
        LLMProcessor.ProcessedWord.word
      = LLMProcessor.wordsOfBatch b := by
  have hstep : (LLMProcessor.batchContribution (.ok br, b)).map
      LLMProcessor.ProcessedWord.word
      = ((br.words.zip b).map Prod.snd).map (fun t => t.1) := by
    simp [LLMProcessor.batchContribution, List.map_map]
  rw [hstep, List.map_snd_zip _ _ (le_of_eq hlen.symm)]
  rfl

lemma flatMap_contribution_all_ok
    (rs : List (Except PyError LLMProcessor.BatchProcessWords))
    (bs : List (List (String × App.CambridgeData × String)))
    (hlen : rs.length = bs.length)
    (hok : ∀ (k : Nat) (b : List (String × App.CambridgeData × String)),
      bs[k]? = some b →
      ∃ br : LLMProcessor.BatchProcessWords,
        rs[k]? = some (Except.ok br) ∧ br.words.length = b.length) :
    ((rs.zip bs).flatMap LLMProcessor.batchContribution).map
        LLMProcessor.ProcessedWord.word
      = bs.flatMap LLMProcessor.wordsOfBatch := by
  induction rs generalizing bs with
  | nil =>
    have hb : bs = [] := by cases bs <;> simp_all
    simp [hb]
  | cons r rs ih =>
    cases bs with
    | nil => simp at hlen
    | cons b bs2 =>
      obtain ⟨br, hbr, hbrlen⟩ := hok 0 b (by simp)
      simp at hbr
      subst hbr
      simp only [List.zip_cons_cons, List.flatMap_cons]
      rw [List.map_append, batchContribution_ok_words br b hbrlen]
      have hok2 : ∀ (k : Nat) (bb : List (String × App.CambridgeData × String)),
          bs2[k]? = some bb →
          ∃ br2 : LLMProcessor.BatchProcessWords,
            rs[k]? = some (Except.ok br2) ∧ br2.words.length = bb.length := by
        intro k bb hk
        obtain ⟨br2, h1, h2⟩ := hok (k + 1) bb (by simpa using hk)
        exact ⟨br2, by simpa using h1, h2⟩
      rw [ih bs2 (by simpa using hlen) hok2]

lemma flatMap_contribution_one_error
    (rs : List (Except PyError LLMProcessor.BatchProcessWords))
    (bs : List (List (String × App.CambridgeData × String)))
    (j : Nat) (err : PyError)
    (hlen : rs.length = bs.length)
    (hfail : rs[j]? = some (Except.error err))
    (hok : ∀ (k : Nat) (b : List (String × App.CambridgeData × String)),
      bs[k]? = some b → k ≠ j →
      ∃ br : LLMProcessor.BatchProcessWords,
        rs[k]? = some (Except.ok br) ∧ br.words.length = b.length) :
    ((rs.zip bs).flatMap LLMProcessor.batchContribution).map
        LLMProcessor.ProcessedWord.word
      = (bs.eraseIdx j).flatMap LLMProcessor.wordsOfBatch := by
  induction rs generalizing bs j with
  | nil => simp at hfail
  | cons r rs ih =>
    cases bs with
    | nil => simp at hlen
    | cons b bs2 =>
      cases j with
      | zero =>
        simp at hfail
        subst hfail
        simp only [List.zip_cons_cons, List.flatMap_cons,
          List.eraseIdx_cons_zero]
        rw [List.map_append]
        have h0 : LLMProcessor.batchContribution (Except.error err, b)
            = [] := rfl
        rw [h0]
        simp only [List.map_nil, List.nil_append]
        apply flatMap_contribution_all_ok rs bs2 (by simpa using hlen)
        intro k bb hk
        obtain ⟨br2, h1, h2⟩ := hok (k + 1) bb (by simpa using hk) (by omega)
        exact ⟨br2, by simpa using h1, h2⟩
      | succ j2 =>
        obtain ⟨br, hbr, hbrlen⟩ := hok 0 b (by simp) (by omega)
        simp at hbr
        subst hbr
        simp only [List.zip_cons_cons, List.flatMap_cons,
          List.eraseIdx_cons_succ]
        rw [List.map_append, batchContribution_ok_words br b hbrlen]
        congr 1
        apply ih bs2 j2 (by simpa using hlen) (by simpa using hfail)
        intro k bb hk hne
        obtain ⟨br2, h1, h2⟩ := hok (k + 1) bb (by simpa using hk) (by omega)
        exact ⟨br2, by simpa using h1, h2⟩

/-- Isolation in the stitching step (the behaviour the no-progress
gather delivers): when the call for batch `j` raises and every sibling
batch returns a full-length response, the stitched words are exactly the
concatenation, in original batch order, of the words of the successful
batches, and (for pairwise-distinct valid words) no word of the failed
batch appears — neither with real nor with default content. -/
lemma stitch_isolation_of_batch_error
    (llmCall : List App.CambridgeData →
      Except PyError LLMProcessor.BatchProcessWords)
    (batch_size : Nat)
    (wdl : List (String × Option App.CambridgeData × String))
    (j : Nat) (err : PyError)
    (bj : List (String × App.CambridgeData × String))
    (hbj : (LLMProcessor.batchesOf batch_size wdl)[j]? = some bj)
    (hfail : (LLMProcessor.resultsOf llmCall batch_size wdl)[j]?
      = some (.error err))
    (hsucc : ∀ k b, (LLMProcessor.batchesOf batch_size wdl)[k]? = some b →
      k ≠ j →
      ∃ br, (LLMProcessor.resultsOf llmCall batch_size wdl)[k]?
          = some (.ok br)
        ∧ br.words.length = b.length)
    (hnodup : (LLMProcessor.wordsOfBatch
      (LLMProcessor.valid_data wdl)).Nodup) :
    (LLMProcessor.stitchBatches llmCall batch_size wdl).map
        LLMProcessor.ProcessedWord.word
      = ((LLMProcessor.batchesOf batch_size wdl).eraseIdx j).flatMap
          LLMProcessor.wordsOfBatch
    ∧ ∀ w ∈ LLMProcessor.wordsOfBatch bj,
        w ∉ (LLMProcessor.stitchBatches llmCall batch_size wdl).map
          LLMProcessor.ProcessedWord.word := by
  have hbs : batch_size ≠ 0 := by
    intro h0
    subst h0
    rw [LLMProcessor.batchesOf, LLMProcessor.chunkList] at hbj
    simp at hbj
  have hout : LLMProcessor.stitchBatches llmCall batch_size wdl
      = ((LLMProcessor.resultsOf llmCall batch_size wdl).zip
          (LLMProcessor.batchesOf batch_size wdl)).flatMap
        LLMProcessor.batchContribution := rfl
  have hlen : (LLMProcessor.resultsOf llmCall batch_size wdl).length
      = (LLMProcessor.batchesOf batch_size wdl).length := by
    simp [LLMProcessor.resultsOf]
  have hmain : (LLMProcessor.stitchBatches llmCall batch_size wdl).map
      LLMProcessor.ProcessedWord.word
      = ((LLMProcessor.batchesOf batch_size wdl).eraseIdx j).flatMap
        LLMProcessor.wordsOfBatch := by
    rw [hout]
    exact flatMap_contribution_one_error _ _ j err hlen hfail hsucc
  refine ⟨hmain, ?_⟩
  intro w hw hmem
  rw [hmain] at hmem
  have hj : j < (LLMProcessor.batchesOf batch_size wdl).length :=
    List.getElem?_eq_some_iff.mp hbj |>.choose
  have hjget : (LLMProcessor.batchesOf batch_size wdl)[j] = bj := by
    have := List.getElem?_eq_some_iff.mp hbj
    exact this.choose_spec
  have hsplit : (LLMProcessor.batchesOf batch_size wdl)
      = (LLMProcessor.batchesOf batch_size wdl).take j
        ++ bj :: (LLMProcessor.batchesOf batch_size wdl).drop (j + 1) := by
    conv_lhs => rw [← List.take_append_drop j
      (LLMProcessor.batchesOf batch_size wdl)]
    rw [List.drop_eq_getElem_cons hj, hjget]
  have hflat : (LLMProcessor.batchesOf batch_size wdl).flatten
      = LLMProcessor.valid_data wdl :=
    chunkList_flatten batch_size hbs _
  have hnodup2 : ((LLMProcessor.batchesOf batch_size wdl).flatMap
      LLMProcessor.wordsOfBatch).Nodup := by
    rw [← wordsOfBatch_flatten, hflat]
    exact hnodup
  rw [hsplit, List.flatMap_append, List.flatMap_cons] at hnodup2
  rw [List.nodup_append] at hnodup2
  obtain ⟨_, hnodupR, hdisjL⟩ := hnodup2
  rw [List.nodup_append] at hnodupR
  obtain ⟨_, _, hdisjM⟩ := hnodupR
  rw [List.eraseIdx_eq_take_drop_succ, List.flatMap_append] at hmem
  rcases List.mem_append.mp hmem with hmemL | hmemR
  · exact hdisjL hmemL (List.mem_append.mpr (Or.inl hw))
  · exact hdisjM hw hmemR

/-- A concrete acquisition record used to settle C1. -/
def c1cdA : App.CambridgeData := { word := "a", definitions := [] }

/-- A second concrete acquisition record used to settle C1. -/
def c1cdB : App.CambridgeData := { word := "b", definitions := [] }

/-- A concrete two-word acquisition output used to settle C1. -/
def c1wdl : List (String × Option App.CambridgeData × String) :=
  [("a", some c1cdA, "pa"), ("b", some c1cdB, "pb")]

/-- A concrete LLM oracle used to settle C1: it raises on the batch
holding the first record and answers every other batch with a one-entry
response. -/
def c1llm (l : List App.CambridgeData) :
    Except PyError LLMProcessor.BatchProcessWords :=
  if l = [c1cdA] then .error (.llm "boom")
  else .ok { words := [{ definitions := [] }] }

lemma c1_batches_eval : LLMProcessor.batchesOf 1 c1wdl
    = [[("a", c1cdA, "pa")], [("b", c1cdB, "pb")]] := by
  have h1 : LLMProcessor.chunkList 1 [("b", c1cdB, "pb")]
      = [[("b", c1cdB, "pb")]] := by
    rw [chunkList_cons 1 (by decide)]
    simp [chunkList_nil]
  have hvd0 : LLMProcessor.valid_data c1wdl
      = [("a", c1cdA, "pa"), ("b", c1cdB, "pb")] := rfl
  rw [LLMProcessor.batchesOf, hvd0, chunkList_cons 1 (by decide)]
  simp [h1]

lemma c1_results_eval : LLMProcessor.resultsOf c1llm 1 c1wdl
    = [Except.error (PyError.llm "boom"),
       Except.ok { words := [{ definitions := [] }] }] := by
  rw [LLMProcessor.resultsOf, c1_batches_eval]
  rfl

lemma llm_process_true_error
    (llmCall : List App.CambridgeData →
      Except PyError LLMProcessor.BatchProcessWords)
    (batch_size : Nat)
    (wdl : List (String × Option App.CambridgeData × String))
    (e : PyError) (hvd : LLMProcessor.valid_data wdl ≠ [])
    (he : firstError (LLMProcessor.resultsOf llmCall batch_size wdl)
      = some e) :
    LLMProcessor.process_words_batch true llmCall batch_size wdl
      = .error e := by
  simp [LLMProcessor.process_words_batch, hvd, he]

lemma llm_process_false_eq
    (llmCall : List App.CambridgeData →
      Except PyError LLMProcessor.BatchProcessWords)
    (batch_size : Nat)
    (wdl : List (String × Option App.CambridgeData × String)) :
    LLMProcessor.process_words_batch false llmCall batch_size wdl
      = .ok (LLMProcessor.stitchBatches llmCall batch_size wdl) := by
  by_cases hvd : LLMProcessor.valid_data wdl = []
  · have hst : LLMProcessor.stitchBatches llmCall batch_size wdl = [] := by
      simp only [LLMProcessor.stitchBatches, LLMProcessor.batchesOf, hvd,
        chunkList_nil]
      simp
    simp [LLMProcessor.process_words_batch, hvd, hst]
  · simp [LLMProcessor.process_words_batch, hvd]

/-- C1: the batch-isolation machinery meets the default gather.  With
batch size 1, the LLM call raising on batch 0 and succeeding on batch 1,
the default progress-bar gather (`show_progress=True`, the mode
`pipeline.py` uses) re-raises the batch exception and the whole
enrichment call aborts — sibling batches included, no output at all —
while the no-progress gather isolates the failure and returns exactly
the sibling batch's word.  The per-batch drop the claim describes is
what the loop at lines 168-186 does, but the default mode aborts before
reaching it. -/
theorem c1_gather_abort :
    LLMProcessor.process_words_batch true c1llm 1 c1wdl
      = .error (PyError.llm "boom")
    ∧ LLMProcessor.process_words_batch false c1llm 1 c1wdl
      = .ok [{ word := "b", selected_definitions := [],
               audio_path := "pb" }] := by
  constructor
  · exact llm_process_true_error c1llm 1 c1wdl (PyError.llm "boom")
      (by decide) (by rw [c1_results_eval]; rfl)
  · rw [llm_process_false_eq]
    have hst : LLMProcessor.stitchBatches c1llm 1 c1wdl
        = [{ word := "b", selected_definitions := [],
             audio_path := "pb" }] := by
      simp only [LLMProcessor.stitchBatches]
      rw [c1_results_eval, c1_batches_eval]
      rfl
    rw [hst]

/-- C8: the example-count cap: whatever example tags a sense block holds,
in either tier, the accumulated example list of the extraction contains
at most three examples. -/
theorem c8_example_cap (s : CambridgeScraper.SenseDoc) :
    ((CambridgeScraper.examplesAcc s 3).getD []).length ≤ 3 := by
  unfold CambridgeScraper.examplesAcc
  match h : CambridgeScraper.exampleTagsOf s with
  | none => simp
  | some (tags, boxPresent) =>
    simp [List.length_take]
